import Mathlib

/-!
Verification of the chcc profile store (`config.go`) and its command layer
(`main.go`).  Profiles (`APISite`) carry a name, a base URL and a token; a
`Config` holds an ordered list of profiles plus the name of the default one.
Go slices of structs are modelled as Lean lists, Go's value semantics as
plain functional updates.  File-system and process-environment effects are
modelled as explicit state (`FsFile`, `EnvState`); the YAML serialization
performed by the external `gopkg.in/yaml.v2` library is modelled from the
spec as a tagged line format preserving the two top-level fields.
-/

set_option autoImplicit false

namespace Chcc

/-- One API profile, from `type APISite struct` in config.go. -/
structure APISite where
  name : String
  baseURL : String
  token : String
  deriving Repr, DecidableEq

/-- The store, from `type Config struct` in config.go: an ordered list of
profiles and the default profile's name. -/
structure Config where
  apiSites : List APISite
  defaultAPISite : String
  deriving Repr, DecidableEq

/-- The empty store built by `loadConfig` in main.go when no file exists. -/
def emptyConfig : Config := { apiSites := [], defaultAPISite := "" }

/-- `GetAPISiteByName` (config.go): first profile whose name matches. -/
def getAPISiteByName (c : Config) (name : String) : Option APISite :=
  c.apiSites.find? (fun s => s.name == name)

/-- The loop body of `AddOrUpdateAPISite` (config.go): update the first
profile with the given name in place (only `BaseURL` and `Token` are
assigned), or append a fresh profile at the end when none matches. -/
def addOrUpdateList (name baseURL token : String) : List APISite → List APISite
  | [] => [⟨name, baseURL, token⟩]
  | s :: rest =>
      if s.name = name then ⟨s.name, baseURL, token⟩ :: rest
      else s :: addOrUpdateList name baseURL token rest

/-- `AddOrUpdateAPISite` (config.go). -/
def addOrUpdateAPISite (c : Config) (name baseURL token : String) : Config :=
  { c with apiSites := addOrUpdateList name baseURL token c.apiSites }

/-- `SetDefaultAPISite` (config.go): scan for the name; on a hit set the
default and report `true`, otherwise report `false` leaving `c` untouched. -/
def setDefaultAPISite (c : Config) (name : String) : Bool × Config :=
  if c.apiSites.any (fun s => s.name == name) then
    (true, { c with defaultAPISite := name })
  else (false, c)

/-- The removal scan of `RemoveAPISite` (config.go): delete the first
profile with the given name, keeping the rest in order; `none` when the
name is absent. -/
def removeFirstList (name : String) : List APISite → Option (List APISite)
  | [] => none
  | s :: rest =>
      if s.name = name then some rest
      else (removeFirstList name rest).map (fun l => s :: l)

/-- `RemoveAPISite` (config.go): on a hit, drop the profile; if the removed
name was the default, clear the default and re-point it at the first
remaining profile when one exists. -/
def removeAPISite (c : Config) (name : String) : Bool × Config :=
  match removeFirstList name c.apiSites with
  | none => (false, c)
  | some sites =>
      (true,
       { apiSites := sites,
         defaultAPISite :=
           if c.defaultAPISite = name then
             match sites with
             | [] => ""
             | s :: _ => s.name
           else c.defaultAPISite })

/-- The command-level `addAPISite` (main.go): store-level add/update, then
take the name as default when the default is still empty. -/
def addAPISite (c : Config) (name url token : String) : Config :=
  let c1 := addOrUpdateAPISite c name url token
  if c1.defaultAPISite = "" then { c1 with defaultAPISite := name } else c1

/-- The three store-mutating commands of main.go. -/
inductive Op where
  | add (name url token : String)
  | setDefault (name : String)
  | remove (name : String)

/-- Run one command against the store, as main.go's handlers do. -/
def applyOp (c : Config) : Op → Config
  | .add n u t => addAPISite c n u t
  | .setDefault n => (setDefaultAPISite c n).2
  | .remove n => (removeAPISite c n).2

/-- Run a command sequence starting from the empty store. -/
def runOps (ops : List Op) : Config := ops.foldl applyOp emptyConfig

/-- The profile names of a store, in order. -/
def namesOf (c : Config) : List String := c.apiSites.map APISite.name

/-- The store invariant: a non-empty default names an existing profile,
and profile names are pairwise distinct. -/
def StoreInv (c : Config) : Prop :=
  (c.defaultAPISite ≠ "" → c.defaultAPISite ∈ namesOf c) ∧ (namesOf c).Nodup

/-! ## Persistence model

`SaveConfig` marshals the store with the external `yaml.v2` library and
`LoadConfig` unmarshals it; the library itself is not part of this
repository, so the wire format is modelled from the spec (§6: a structured
text document with a list of `name`/`base_url`/`token` records and a scalar
default name) as a list of tagged lines. -/

/-- Modelled from the spec: the serialized lines of one profile record, as
the external YAML marshaller emits them (tag plus scalar value). -/
def serializeSite (s : APISite) : List (String × String) :=
  [("name", s.name), ("base_url", s.baseURL), ("token", s.token)]

/-- Modelled from the spec: the whole-store serialization written by
`SaveConfig` — all profile records in order, then the default name. -/
def serializeConfig (c : Config) : List (String × String) :=
  (c.apiSites.map serializeSite).flatten ++ [("default_api_site", c.defaultAPISite)]

/-- Modelled from the spec: the parse of the persisted document performed
by `LoadConfig`'s unmarshal step; `none` signals malformed data. -/
def parseConfigData : List (String × String) → Option Config
  | [(tag, d)] =>
      if tag = "default_api_site" then some { apiSites := [], defaultAPISite := d }
      else none
  | (t1, n) :: (t2, u) :: (t3, k) :: rest =>
      if t1 = "name" ∧ t2 = "base_url" ∧ t3 = "token" then
        (parseConfigData rest).map
          (fun c => { apiSites := ⟨n, u, k⟩ :: c.apiSites,
                      defaultAPISite := c.defaultAPISite })
      else none
  | _ => none

/-- What the load path can observe about the configuration file: absent,
present but unreadable, or readable with some contents. -/
inductive FsFile where
  | absent
  | unreadable
  | readable (data : List (String × String))

/-- The two load-time failures of `LoadConfig` (config.go): a failed read
and a failed unmarshal. -/
inductive LoadError where
  | ioError
  | parseError
  deriving Repr, DecidableEq

/-- The load path: `loadConfig` (main.go) returns a fresh empty store when
the file does not exist, and otherwise defers to `LoadConfig` (config.go),
which fails with an I/O error when the read fails and a parse error when
the unmarshal fails. -/
def loadStore : FsFile → Except LoadError Config
  | .absent => .ok emptyConfig
  | .unreadable => .error .ioError
  | .readable d =>
      match parseConfigData d with
      | some c => .ok c
      | none => .error .parseError

/-! ## Environment-propagation model

`SetEnvironmentVariables` and its two helpers (config.go) mutate the
process environment, and on the Unix path append to shell startup files.
The observable state is a process environment and a file system mapping
paths to files; `os.Stat` failure is modelled as the file being absent and
`os.OpenFile` failure as the file being unopenable.  The Windows `setx`
calls are external best-effort commands whose failure is only warned
about, so they leave no modelled state. -/

/-- A file as seen by the Unix path: whether `os.OpenFile` succeeds on it,
and its current contents. -/
structure OSFile where
  openable : Bool
  content : String
  deriving Repr, DecidableEq

/-- Process environment plus file system. -/
structure EnvState where
  procEnv : String → Option String
  files : String → Option OSFile

/-- `os.Setenv`. -/
def setProcEnv (e : String → Option String) (k v : String) : String → Option String :=
  fun k' => if k' = k then some v else e k'

/-- The errors `SetEnvironmentVariables` can return: unknown profile name,
or (Unix path) failure to determine the home directory. -/
inductive EnvError where
  | siteNotFound
  | homeDirError
  deriving Repr, DecidableEq

/-- The export block appended by `setUnixEnvVars` (config.go). -/
def exportLines (baseURL authToken : String) : String :=
  "\n# CHCC API Configuration\nexport ANTHROPIC_BASE_URL=\"" ++ baseURL ++
    "\"\nexport ANTHROPIC_AUTH_TOKEN=\"" ++ authToken ++ "\"\n"

/-- One iteration of the startup-file loop in `setUnixEnvVars`: skip the
path when `os.Stat` fails, skip (continue) when `os.OpenFile` fails, and
otherwise append the text to the file. -/
def tryAppendFile (files : String → Option OSFile) (path text : String) :
    String → Option OSFile :=
  match files path with
  | none => files
  | some f =>
      if f.openable then
        fun p => if p = path then some { f with content := f.content ++ text } else files p
      else files

/-- `setUnixEnvVars` (config.go): set the two process variables, fail when
the home directory is unavailable, and otherwise run the startup-file loop
over `~/.bashrc` and `~/.zshrc`. -/
def setUnixEnvVars (homeDir : Option String) (baseURL authToken : String)
    (st : EnvState) : Except EnvError EnvState :=
  let env1 := setProcEnv (setProcEnv st.procEnv "ANTHROPIC_BASE_URL" baseURL)
    "ANTHROPIC_AUTH_TOKEN" authToken
  match homeDir with
  | none => .error .homeDirError
  | some home =>
      let text := exportLines baseURL authToken
      let rcFiles := [home ++ "/.bashrc", home ++ "/.zshrc"]
      .ok { procEnv := env1,
            files := rcFiles.foldl (fun fs rc => tryAppendFile fs rc text) st.files }

/-- `setWindowsEnvVars` (config.go): set the two process variables; the
`setx` invocations are best-effort and never fail the call. -/
def setWindowsEnvVars (baseURL authToken : String) (st : EnvState) :
    Except EnvError EnvState :=
  .ok { st with
        procEnv := setProcEnv (setProcEnv st.procEnv "ANTHROPIC_BASE_URL" baseURL)
          "ANTHROPIC_AUTH_TOKEN" authToken }

/-- `SetEnvironmentVariables` (config.go): look the profile up, then branch
on `runtime.GOOS`: the Windows helper when it equals `"windows"`, the Unix
helper for every other value. -/
def setEnvironmentVariables (goos : String) (c : Config) (siteName : String)
    (homeDir : Option String) (st : EnvState) : Except EnvError EnvState :=
  match getAPISiteByName c siteName with
  | none => .error .siteNotFound
  | some site =>
      if goos = "windows" then setWindowsEnvVars site.baseURL site.token st
      else setUnixEnvVars homeDir site.baseURL site.token st

/-- Whether a propagation call reported success. -/
def isSuccess : Except EnvError EnvState → Bool
  | .ok _ => true
  | .error _ => false

/-- The file system after a propagation call; on failure nothing further
is observed. -/
def resultFiles : Except EnvError EnvState → String → Option OSFile
  | .ok st, p => st.files p
  | .error _, _ => none

example : addAPISite emptyConfig "A" "u" "t" =
    { apiSites := [⟨"A", "u", "t"⟩], defaultAPISite := "A" } := by decide

example : (removeAPISite ⟨[⟨"A", "u", "t"⟩, ⟨"B", "v", "s"⟩], "A"⟩ "A").2 =
    { apiSites := [⟨"B", "v", "s"⟩], defaultAPISite := "B" } := by decide

/-! ## Helper lemmas on the list operations -/

theorem addOrUpdateList_not_mem (name u t : String) (l : List APISite)
    (h : ∀ s ∈ l, s.name ≠ name) :
    addOrUpdateList name u t l = l ++ [⟨name, u, t⟩] := by
  induction l with
  | nil => rfl
  | cons a tl ih =>
      have ha : a.name ≠ name := h a (List.mem_cons_self a tl)
      simp only [addOrUpdateList, if_neg ha, List.cons_append,
        ih (fun s hs => h s (List.mem_cons_of_mem a hs))]

theorem addOrUpdateList_decomp (name u t : String) (l1 : List APISite)
    (s : APISite) (l2 : List APISite) (hs : s.name = name)
    (h1 : ∀ s' ∈ l1, s'.name ≠ name) :
    addOrUpdateList name u t (l1 ++ s :: l2) = l1 ++ ⟨name, u, t⟩ :: l2 := by
  induction l1 with
  | nil => simp [addOrUpdateList, if_pos hs, hs]
  | cons a tl ih =>
      have ha : a.name ≠ name := h1 a (List.mem_cons_self a tl)
      simp only [List.cons_append, addOrUpdateList, if_neg ha, List.append_eq,
        ih (fun s' hs' => h1 s' (List.mem_cons_of_mem a hs'))]

theorem find?_name_append (name : String) (l1 : List APISite) (x : APISite)
    (l2 : List APISite) (h1 : ∀ s ∈ l1, s.name ≠ name) (hx : x.name = name) :
    (l1 ++ x :: l2).find? (fun s => s.name == name) = some x := by
  induction l1 with
  | nil =>
      simp only [List.nil_append]
      exact List.find?_cons_of_pos _ (by simp [hx])
  | cons a tl ih =>
      have ha : a.name ≠ name := h1 a (List.mem_cons_self a tl)
      simp only [List.cons_append]
      rw [List.find?_cons_of_neg _ (by simp [ha])]
      exact ih (fun s hs => h1 s (List.mem_cons_of_mem a hs))

theorem removeFirstList_not_mem (name : String) (l : List APISite)
    (h : ∀ s ∈ l, s.name ≠ name) :
    removeFirstList name l = none := by
  induction l with
  | nil => rfl
  | cons a tl ih =>
      have ha : a.name ≠ name := h a (List.mem_cons_self a tl)
      simp only [removeFirstList, if_neg ha,
        ih (fun s hs => h s (List.mem_cons_of_mem a hs)), Option.map_none']

theorem removeFirstList_decomp (name : String) (l1 : List APISite)
    (s : APISite) (l2 : List APISite) (hs : s.name = name)
    (h1 : ∀ s' ∈ l1, s'.name ≠ name) :
    removeFirstList name (l1 ++ s :: l2) = some (l1 ++ l2) := by
  induction l1 with
  | nil => simp [removeFirstList, if_pos hs]
  | cons a tl ih =>
      have ha : a.name ≠ name := h1 a (List.mem_cons_self a tl)
      simp only [List.cons_append, removeFirstList, if_neg ha, List.append_eq,
        ih (fun s' hs' => h1 s' (List.mem_cons_of_mem a hs')), Option.map_some']

theorem removeFirstList_eq_some (name : String) (l l' : List APISite)
    (h : removeFirstList name l = some l') :
    ∃ l1 s l2, l = l1 ++ s :: l2 ∧ s.name = name ∧ l' = l1 ++ l2 := by
  induction l generalizing l' with
  | nil => simp [removeFirstList] at h
  | cons a tl ih =>
      by_cases ha : a.name = name
      · rw [removeFirstList, if_pos ha] at h
        exact ⟨[], a, tl, by simp, ha, by simpa using h.symm⟩
      · rw [removeFirstList, if_neg ha] at h
        rw [Option.map_eq_some'] at h
        obtain ⟨u, hu, rfl⟩ := h
        obtain ⟨l1, s, l2, rfl, hs, rfl⟩ := ih u hu
        exact ⟨a :: l1, s, l2, by simp, hs, by simp⟩

theorem names_addOrUpdateList (name u t : String) (l : List APISite) :
    (addOrUpdateList name u t l).map APISite.name =
      if name ∈ l.map APISite.name then l.map APISite.name
      else l.map APISite.name ++ [name] := by
  induction l with
  | nil => simp [addOrUpdateList]
  | cons a tl ih =>
      by_cases ha : a.name = name
      · subst ha
        simp [addOrUpdateList, List.mem_cons]
      · simp only [addOrUpdateList, if_neg ha, List.map_cons, ih]
        by_cases hm : name ∈ tl.map APISite.name
        · simp [List.mem_cons, hm]
        · simp [List.mem_cons, hm, Ne.symm ha]

theorem mem_names_addOrUpdateList (n u t d : String) (l : List APISite)
    (h : d ∈ l.map APISite.name) :
    d ∈ (addOrUpdateList n u t l).map APISite.name := by
  rw [names_addOrUpdateList]
  by_cases hm : n ∈ l.map APISite.name
  · simpa [hm] using h
  · simp only [if_neg hm]
    exact List.mem_append_left _ h

theorem self_mem_names_addOrUpdateList (n u t : String) (l : List APISite) :
    n ∈ (addOrUpdateList n u t l).map APISite.name := by
  rw [names_addOrUpdateList]
  by_cases hm : n ∈ l.map APISite.name
  · simp [hm]
  · simp [hm]

theorem nodup_names_addOrUpdateList (n u t : String) (l : List APISite)
    (h : (l.map APISite.name).Nodup) :
    ((addOrUpdateList n u t l).map APISite.name).Nodup := by
  rw [names_addOrUpdateList]
  by_cases hm : n ∈ l.map APISite.name
  · simpa [hm] using h
  · simp only [if_neg hm]
    refine List.Nodup.append h (List.nodup_singleton n) ?_
    intro a ha hb
    rw [List.mem_singleton] at hb
    subst hb
    exact hm ha

theorem addAPISite_eq (c : Config) (n u t : String) :
    addAPISite c n u t =
      ⟨addOrUpdateList n u t c.apiSites,
       if c.defaultAPISite = "" then n else c.defaultAPISite⟩ := by
  by_cases h0 : c.defaultAPISite = ""
  · simp [addAPISite, addOrUpdateAPISite, h0]
  · simp [addAPISite, addOrUpdateAPISite, h0]

theorem removeAPISite_snd_eq (c : Config) (n : String) :
    (removeAPISite c n).2 = c ∨
    ∃ l1 s l2, c.apiSites = l1 ++ s :: l2 ∧ s.name = n ∧
      (removeAPISite c n).2 =
        ⟨l1 ++ l2,
         if c.defaultAPISite = n then
           match l1 ++ l2 with
           | [] => ""
           | b :: _ => b.name
         else c.defaultAPISite⟩ := by
  unfold removeAPISite
  cases hrm : removeFirstList n c.apiSites with
  | none => exact Or.inl rfl
  | some sites =>
      obtain ⟨l1, s, l2, heq, hs, rfl⟩ := removeFirstList_eq_some n c.apiSites sites hrm
      exact Or.inr ⟨l1, s, l2, heq, hs, rfl⟩

theorem storeInv_addAPISite (c : Config) (n u t : String) (h : StoreInv c) :
    StoreInv (addAPISite c n u t) := by
  obtain ⟨hdef, hnodup⟩ := h
  rw [addAPISite_eq]
  refine ⟨fun hne => ?_, nodup_names_addOrUpdateList n u t c.apiSites hnodup⟩
  by_cases h0 : c.defaultAPISite = ""
  · simp only [h0, if_true, if_pos rfl]
    exact self_mem_names_addOrUpdateList n u t c.apiSites
  · simp only [if_neg h0] at hne ⊢
    exact mem_names_addOrUpdateList n u t c.defaultAPISite c.apiSites (hdef h0)

theorem storeInv_setDefault (c : Config) (n : String) (h : StoreInv c) :
    StoreInv (setDefaultAPISite c n).2 := by
  unfold setDefaultAPISite
  by_cases hany : (c.apiSites.any fun s => s.name == n) = true
  · rw [if_pos hany]
    obtain ⟨s, hmem, hname⟩ := List.any_eq_true.mp hany
    rw [beq_iff_eq] at hname
    exact ⟨fun _ => List.mem_map.mpr ⟨s, hmem, hname⟩, h.2⟩
  · rw [if_neg hany]
    exact h

theorem storeInv_remove (c : Config) (n : String) (h : StoreInv c) :
    StoreInv (removeAPISite c n).2 := by
  rcases removeAPISite_snd_eq c n with he | ⟨l1, s, l2, heq, hs, he⟩
  · rw [he]; exact h
  · obtain ⟨hdef, hnodup⟩ := h
    rw [he]
    have hnodup' : ((l1 ++ s :: l2).map APISite.name).Nodup := by
      rw [← heq]; exact hnodup
    constructor
    · intro hne
      by_cases hd : c.defaultAPISite = n
      · rw [if_pos hd] at hne ⊢
        cases hl : l1 ++ l2 with
        | nil => rw [hl] at hne; exact absurd rfl hne
        | cons b bs =>
            show b.name ∈ (b :: bs).map APISite.name
            exact List.mem_map.mpr ⟨b, List.mem_cons_self b bs, rfl⟩
      · rw [if_neg hd] at hne ⊢
        have hd0 : c.defaultAPISite ∈ (l1 ++ s :: l2).map APISite.name := by
          rw [← heq]; exact hdef hne
        show c.defaultAPISite ∈ (l1 ++ l2).map APISite.name
        rw [List.map_append, List.map_cons] at hd0
        rw [List.map_append]
        rcases List.mem_append.mp hd0 with h1 | h2
        · exact List.mem_append_left _ h1
        · rcases List.mem_cons.mp h2 with hb | h3
          · exact absurd (hb.trans hs) hd
          · exact List.mem_append_right _ h3
    · show ((l1 ++ l2).map APISite.name).Nodup
      have hsub : List.Sublist ((l1 ++ l2).map APISite.name)
          ((l1 ++ s :: l2).map APISite.name) :=
        List.Sublist.map _ (List.Sublist.append_left (List.sublist_cons_self s l2) l1)
      exact hnodup'.sublist hsub

theorem storeInv_applyOp (c : Config) (op : Op) (h : StoreInv c) :
    StoreInv (applyOp c op) := by
  cases op with
  | add n u t => exact storeInv_addAPISite c n u t h
  | setDefault n => exact storeInv_setDefault c n h
  | remove n => exact storeInv_remove c n h

theorem storeInv_foldl (ops : List Op) :
    ∀ c, StoreInv c → StoreInv (ops.foldl applyOp c) := by
  induction ops with
  | nil => exact fun c h => h
  | cons op tl ih => exact fun c h => ih _ (storeInv_applyOp c op h)

theorem rc_paths_ne (home : String) : home ++ "/.bashrc" ≠ home ++ "/.zshrc" := by
  intro h
  have h2 := congrArg String.data h
  rw [String.data_append, String.data_append] at h2
  exact absurd (List.append_cancel_left h2) (by decide)

theorem tryAppendFile_ne (files : String → Option OSFile) (path text p : String)
    (hne : p ≠ path) : tryAppendFile files path text p = files p := by
  unfold tryAppendFile
  cases files path with
  | none => rfl
  | some f =>
      by_cases hf : f.openable
      · simp [hf, hne]
      · simp [hf]

theorem tryAppendFile_self (files : String → Option OSFile) (path text : String) :
    tryAppendFile files path text path =
      (files path).map
        (fun f => if f.openable then ⟨f.openable, f.content ++ text⟩ else f) := by
  unfold tryAppendFile
  cases h : files path with
  | none =>
      show files path = none
      exact h
  | some f =>
      by_cases hf : f.openable
      · simp [hf]
      · simp only [Bool.not_eq_true] at hf
        simp [hf]
        exact h

theorem parse_serialize_aux (sites : List APISite) (d : String) :
    parseConfigData ((sites.map serializeSite).flatten ++ [("default_api_site", d)])
      = some ⟨sites, d⟩ := by
  induction sites with
  | nil => simp [parseConfigData]
  | cons s tl ih =>
      simp only [List.map_cons, List.flatten_cons, serializeSite, List.cons_append,
        List.append_assoc]
      simp [parseConfigData, ih]

/-! ## Claim theorems -/

/-- C1: for every store and every name, baseURL, token, `AddOrUpdateAPISite`
on an existing name overwrites that profile's base URL and token in place —
it keeps its position, the list length is unchanged, and a subsequent
`GetAPISiteByName` returns the new fields — while on a fresh name it appends
a profile with exactly those fields at the end of the list. -/
theorem addOrUpdateAPISite_spec (c : Config) (name baseURL token : String) :
    (∀ l1 s l2, c.apiSites = l1 ++ s :: l2 → s.name = name →
        (∀ s' ∈ l1, s'.name ≠ name) →
        (addOrUpdateAPISite c name baseURL token).apiSites
            = l1 ++ ⟨name, baseURL, token⟩ :: l2 ∧
        (addOrUpdateAPISite c name baseURL token).apiSites.length
            = c.apiSites.length ∧
        getAPISiteByName (addOrUpdateAPISite c name baseURL token) name
            = some ⟨name, baseURL, token⟩) ∧
    ((∀ s ∈ c.apiSites, s.name ≠ name) →
        (addOrUpdateAPISite c name baseURL token).apiSites
            = c.apiSites ++ [⟨name, baseURL, token⟩] ∧
        getAPISiteByName (addOrUpdateAPISite c name baseURL token) name
            = some ⟨name, baseURL, token⟩) := by
  constructor
  · intro l1 s l2 heq hs h1
    have hlist : (addOrUpdateAPISite c name baseURL token).apiSites
        = l1 ++ ⟨name, baseURL, token⟩ :: l2 := by
      simp only [addOrUpdateAPISite]
      rw [heq, addOrUpdateList_decomp name baseURL token l1 s l2 hs h1]
    refine ⟨hlist, ?_, ?_⟩
    · rw [hlist, heq]; simp
    · unfold getAPISiteByName
      rw [hlist]
      exact find?_name_append name l1 _ l2 h1 rfl
  · intro h
    have hlist : (addOrUpdateAPISite c name baseURL token).apiSites
        = c.apiSites ++ [⟨name, baseURL, token⟩] := by
      simp only [addOrUpdateAPISite]
      rw [addOrUpdateList_not_mem name baseURL token _ h]
    refine ⟨hlist, ?_⟩
    unfold getAPISiteByName
    rw [hlist]
    exact find?_name_append name c.apiSites _ [] h rfl

/-- C1 witness: both branches at concrete stores — updating `"B"` in a
two-profile store, and appending `"C"` to it. -/
theorem addOrUpdateAPISite_spec_witness :
    ((addOrUpdateAPISite ⟨[⟨"A", "u1", "t1"⟩, ⟨"B", "u2", "t2"⟩], "A"⟩ "B" "u3" "t3").apiSites
        = [⟨"A", "u1", "t1"⟩, ⟨"B", "u3", "t3"⟩] ∧
     (addOrUpdateAPISite ⟨[⟨"A", "u1", "t1"⟩, ⟨"B", "u2", "t2"⟩], "A"⟩ "B" "u3" "t3").apiSites.length
        = 2 ∧
     getAPISiteByName (addOrUpdateAPISite ⟨[⟨"A", "u1", "t1"⟩, ⟨"B", "u2", "t2"⟩], "A"⟩ "B" "u3" "t3") "B"
        = some ⟨"B", "u3", "t3"⟩) ∧
    ((addOrUpdateAPISite ⟨[⟨"A", "u1", "t1"⟩, ⟨"B", "u2", "t2"⟩], "A"⟩ "C" "u4" "t4").apiSites
        = [⟨"A", "u1", "t1"⟩, ⟨"B", "u2", "t2"⟩, ⟨"C", "u4", "t4"⟩] ∧
     getAPISiteByName (addOrUpdateAPISite ⟨[⟨"A", "u1", "t1"⟩, ⟨"B", "u2", "t2"⟩], "A"⟩ "C" "u4" "t4") "C"
        = some ⟨"C", "u4", "t4"⟩) :=
  ⟨(addOrUpdateAPISite_spec ⟨[⟨"A", "u1", "t1"⟩, ⟨"B", "u2", "t2"⟩], "A"⟩ "B" "u3" "t3").1
      [⟨"A", "u1", "t1"⟩] ⟨"B", "u2", "t2"⟩ [] rfl rfl (by decide),
   (addOrUpdateAPISite_spec ⟨[⟨"A", "u1", "t1"⟩, ⟨"B", "u2", "t2"⟩], "A"⟩ "C" "u4" "t4").2
      (by decide)⟩

/-- C3: `RemoveAPISite` on a present name reports `true`, deletes that
profile keeping the rest in relative order, reassigns the default to the
first remaining profile (or clears it) when the removed profile was the
default, and leaves the default alone otherwise; on an absent name it
reports `false` and changes nothing. -/
theorem removeAPISite_spec (c : Config) (name : String) :
    (∀ l1 s l2, c.apiSites = l1 ++ s :: l2 → s.name = name →
        (∀ s' ∈ l1, s'.name ≠ name) →
        (removeAPISite c name).1 = true ∧
        (removeAPISite c name).2.apiSites = l1 ++ l2 ∧
        (removeAPISite c name).2.defaultAPISite =
          (if c.defaultAPISite = name then
             match l1 ++ l2 with
             | [] => ""
             | s' :: _ => s'.name
           else c.defaultAPISite)) ∧
    ((∀ s ∈ c.apiSites, s.name ≠ name) → removeAPISite c name = (false, c)) := by
  constructor
  · intro l1 s l2 heq hs h1
    have hrm : removeFirstList name c.apiSites = some (l1 ++ l2) := by
      rw [heq]; exact removeFirstList_decomp name l1 s l2 hs h1
    refine ⟨?_, ?_, ?_⟩ <;> simp [removeAPISite, hrm]
  · intro h
    have hrm : removeFirstList name c.apiSites = none :=
      removeFirstList_not_mem name c.apiSites h
    simp [removeAPISite, hrm]

/-- C3 witness: removing the default `"A"` from a two-profile store, and
removing an absent name from it. -/
theorem removeAPISite_spec_witness :
    ((removeAPISite ⟨[⟨"A", "u1", "t1"⟩, ⟨"B", "u2", "t2"⟩], "A"⟩ "A").1 = true ∧
     (removeAPISite ⟨[⟨"A", "u1", "t1"⟩, ⟨"B", "u2", "t2"⟩], "A"⟩ "A").2.apiSites
        = [⟨"B", "u2", "t2"⟩] ∧
     (removeAPISite ⟨[⟨"A", "u1", "t1"⟩, ⟨"B", "u2", "t2"⟩], "A"⟩ "A").2.defaultAPISite
        = "B") ∧
    removeAPISite ⟨[⟨"A", "u1", "t1"⟩, ⟨"B", "u2", "t2"⟩], "A"⟩ "X"
        = (false, ⟨[⟨"A", "u1", "t1"⟩, ⟨"B", "u2", "t2"⟩], "A"⟩) :=
  ⟨(removeAPISite_spec ⟨[⟨"A", "u1", "t1"⟩, ⟨"B", "u2", "t2"⟩], "A"⟩ "A").1
      [] ⟨"A", "u1", "t1"⟩ [⟨"B", "u2", "t2"⟩] rfl rfl (by decide),
   (removeAPISite_spec ⟨[⟨"A", "u1", "t1"⟩, ⟨"B", "u2", "t2"⟩], "A"⟩ "X").2
      (by decide)⟩

/-- C4: `SetDefaultAPISite` succeeds and sets the default exactly when some
profile carries the name; on an unknown name it reports `false` and leaves
the whole store unchanged. -/
theorem setDefaultAPISite_spec (c : Config) (name : String) :
    ((∃ s ∈ c.apiSites, s.name = name) →
        setDefaultAPISite c name = (true, { c with defaultAPISite := name })) ∧
    ((∀ s ∈ c.apiSites, s.name ≠ name) → setDefaultAPISite c name = (false, c)) := by
  constructor
  · rintro ⟨s, hmem, hs⟩
    have hany : (c.apiSites.any fun s => s.name == name) = true :=
      List.any_eq_true.mpr ⟨s, hmem, by simp [hs]⟩
    simp [setDefaultAPISite, hany]
  · intro h
    have hany : (c.apiSites.any fun s => s.name == name) = false := by
      simp only [List.any_eq_false]
      intro s hs
      simp [h s hs]
    simp [setDefaultAPISite, hany]

/-- C4 witness: setting the present `"B"` and the absent `"X"` as default
on a concrete store. -/
theorem setDefaultAPISite_spec_witness :
    setDefaultAPISite ⟨[⟨"A", "u1", "t1"⟩, ⟨"B", "u2", "t2"⟩], "A"⟩ "B"
        = (true, ⟨[⟨"A", "u1", "t1"⟩, ⟨"B", "u2", "t2"⟩], "B"⟩) ∧
    setDefaultAPISite ⟨[⟨"A", "u1", "t1"⟩, ⟨"B", "u2", "t2"⟩], "A"⟩ "X"
        = (false, ⟨[⟨"A", "u1", "t1"⟩, ⟨"B", "u2", "t2"⟩], "A"⟩) :=
  ⟨(setDefaultAPISite_spec ⟨[⟨"A", "u1", "t1"⟩, ⟨"B", "u2", "t2"⟩], "A"⟩ "B").1
      ⟨⟨"B", "u2", "t2"⟩, by decide, rfl⟩,
   (setDefaultAPISite_spec ⟨[⟨"A", "u1", "t1"⟩, ⟨"B", "u2", "t2"⟩], "A"⟩ "X").2
      (by decide)⟩

/-- C2 counterexample: the claim quantifies over every store with at least
one profile, but `addAPISite` keys its default assignment on
`defaultAPISite` being empty, not on the profile count.  On the store with
one profile `"A"` and an empty default — a state a hand-edited
configuration file can produce — adding `"B"` changes the default from
`""` to `"B"`, though the claim says a subsequent add leaves it unchanged. -/
theorem addAPISite_default_cex :
    ¬ ((addAPISite ⟨[⟨"A", "u1", "t1"⟩], ""⟩ "B" "u2" "t2").defaultAPISite
        = (⟨[⟨"A", "u1", "t1"⟩], ""⟩ : Config).defaultAPISite) := by decide

/-- C2 amended: the command-level add sets `defaultAPISite` to the added
name exactly when the store's default was empty before the call (as it is
on a store with zero profiles produced by the tool itself), and leaves a
non-empty default unchanged. -/
theorem addAPISite_default_spec (c : Config) (name url token : String) :
    (c.defaultAPISite = "" → (addAPISite c name url token).defaultAPISite = name) ∧
    (c.defaultAPISite ≠ "" →
        (addAPISite c name url token).defaultAPISite = c.defaultAPISite) := by
  constructor
  · intro h
    simp [addAPISite, addOrUpdateAPISite, h]
  · intro h
    simp [addAPISite, addOrUpdateAPISite, h]

/-- C2 witness: the first add to the empty store makes `"A"` the default,
and a later add to a store whose default is `"A"` keeps it. -/
theorem addAPISite_default_spec_witness :
    (addAPISite emptyConfig "A" "u1" "t1").defaultAPISite = "A" ∧
    (addAPISite ⟨[⟨"A", "u1", "t1"⟩], "A"⟩ "B" "u2" "t2").defaultAPISite = "A" :=
  ⟨(addAPISite_default_spec emptyConfig "A" "u1" "t1").1 rfl,
   (addAPISite_default_spec ⟨[⟨"A", "u1", "t1"⟩], "A"⟩ "B" "u2" "t2").2 (by decide)⟩

/-- C10: the store-level `AddOrUpdateAPISite` never touches
`defaultAPISite` — the field is identical before and after, in both the
update and the append case — and the first-add default assignment lives
solely in the command-level `addAPISite`, which changes the default (to the
added name) only when it was the empty string. -/
theorem addOrUpdateAPISite_default_frame (c : Config) (name url token : String) :
    (addOrUpdateAPISite c name url token).defaultAPISite = c.defaultAPISite ∧
    (c.defaultAPISite ≠ "" →
        addAPISite c name url token = addOrUpdateAPISite c name url token) ∧
    (c.defaultAPISite = "" →
        addAPISite c name url token
          = { addOrUpdateAPISite c name url token with defaultAPISite := name }) := by
  refine ⟨rfl, ?_, ?_⟩
  · intro h
    simp [addAPISite, addOrUpdateAPISite, h]
  · intro h
    simp [addAPISite, addOrUpdateAPISite, h]

/-- C10 witness: the frame holds on a concrete store with default `"A"`,
and the command layer's assignment fires on the empty store only. -/
theorem addOrUpdateAPISite_default_frame_witness :
    (addOrUpdateAPISite ⟨[⟨"A", "u1", "t1"⟩], "A"⟩ "B" "u2" "t2").defaultAPISite = "A" ∧
    addAPISite ⟨[⟨"A", "u1", "t1"⟩], "A"⟩ "B" "u2" "t2"
        = addOrUpdateAPISite ⟨[⟨"A", "u1", "t1"⟩], "A"⟩ "B" "u2" "t2" ∧
    addAPISite emptyConfig "A" "u1" "t1"
        = { addOrUpdateAPISite emptyConfig "A" "u1" "t1" with defaultAPISite := "A" } :=
  ⟨(addOrUpdateAPISite_default_frame ⟨[⟨"A", "u1", "t1"⟩], "A"⟩ "B" "u2" "t2").1,
   (addOrUpdateAPISite_default_frame ⟨[⟨"A", "u1", "t1"⟩], "A"⟩ "B" "u2" "t2").2.1
      (by decide),
   (addOrUpdateAPISite_default_frame emptyConfig "A" "u1" "t1").2.2 rfl⟩

/-- C5: every store reachable from the empty store by command-level add,
set-default and remove operations satisfies the store invariant — a
non-empty `defaultAPISite` names some profile in the list, and profile
names are pairwise distinct. -/
theorem runOps_storeInv (ops : List Op) : StoreInv (runOps ops) :=
  storeInv_foldl ops emptyConfig ⟨fun h => absurd rfl h, List.nodup_nil⟩

/-- C5 witness: the invariant instantiated on the spec's §8 scenario
sequence. -/
theorem runOps_storeInv_witness :
    StoreInv (runOps [Op.add "A" "url1" "tok1", Op.add "B" "url2" "tok2",
      Op.setDefault "B", Op.remove "A"]) :=
  runOps_storeInv [Op.add "A" "url1" "tok1", Op.add "B" "url2" "tok2",
    Op.setDefault "B", Op.remove "A"]

/-- C6: the load path returns the empty store (not an error) when the
configuration file does not exist, fails with an I/O error when the file
exists but cannot be read, and fails with a parse error when its contents
are not valid serialized store data. -/
theorem loadStore_spec :
    loadStore .absent = .ok emptyConfig ∧
    loadStore .unreadable = .error .ioError ∧
    ∀ d, parseConfigData d = none → loadStore (.readable d) = .error .parseError := by
  refine ⟨rfl, rfl, fun d h => ?_⟩
  simp [loadStore, h]

/-- C6 witness: a concrete malformed document is rejected with a parse
error. -/
theorem loadStore_spec_witness :
    parseConfigData [("bogus", "x")] = none ∧
    loadStore (.readable [("bogus", "x")]) = .error .parseError :=
  ⟨rfl, loadStore_spec.2.2 [("bogus", "x")] rfl⟩

/-- C7: serializing any store and loading the written document back yields
an equivalent store — the same profiles in the same order and the same
default name. -/
theorem save_load_roundtrip (c : Config) :
    loadStore (.readable (serializeConfig c)) = .ok c := by
  simp [loadStore, serializeConfig, parse_serialize_aux]

/-- C8 counterexample: the claim says propagation on an unknown platform
reports failure, but `SetEnvironmentVariables` has no unsupported-platform
branch — every non-`"windows"` value of `runtime.GOOS` takes the Unix path.
On GOOS `"plan9"` with an existing profile and an available home directory
the call reports success. -/
theorem setEnvironmentVariables_unknown_os_cex :
    isSuccess (setEnvironmentVariables "plan9" ⟨[⟨"A", "u", "t"⟩], "A"⟩ "A"
      (some "/home/u") ⟨fun _ => none, fun _ => none⟩) = true := rfl

/-- C8 amended: invoked for an existing profile on any non-Windows
platform, known or unknown, `SetEnvironmentVariables` runs the Unix-like
strategy: it reports failure only when the home directory cannot be
determined, and otherwise reports success; it never crashes the process. -/
theorem setEnvironmentVariables_non_windows (goos : String) (c : Config)
    (siteName : String) (site : APISite) (homeDir : Option String) (st : EnvState)
    (hgoos : goos ≠ "windows") (hsite : getAPISiteByName c siteName = some site) :
    setEnvironmentVariables goos c siteName homeDir st
        = setUnixEnvVars homeDir site.baseURL site.token st ∧
    (∀ h, homeDir = some h →
        isSuccess (setEnvironmentVariables goos c siteName homeDir st) = true) ∧
    (homeDir = none →
        setEnvironmentVariables goos c siteName homeDir st
          = .error .homeDirError) := by
  have h1 : setEnvironmentVariables goos c siteName homeDir st
      = setUnixEnvVars homeDir site.baseURL site.token st := by
    unfold setEnvironmentVariables
    rw [hsite]
    simp [hgoos]
  refine ⟨h1, ?_, ?_⟩
  · rintro h rfl
    rw [h1]
    rfl
  · rintro rfl
    rw [h1]
    rfl

/-- C8 witness: on GOOS `"plan9"` with an existing profile, the call fails
exactly when the home directory is unavailable. -/
theorem setEnvironmentVariables_non_windows_witness :
    ("plan9" : String) ≠ "windows" ∧
    getAPISiteByName ⟨[⟨"A", "u", "t"⟩], "A"⟩ "A" = some ⟨"A", "u", "t"⟩ ∧
    setEnvironmentVariables "plan9" ⟨[⟨"A", "u", "t"⟩], "A"⟩ "A" none
        ⟨fun _ => none, fun _ => none⟩ = .error .homeDirError :=
  ⟨by decide, rfl,
   (setEnvironmentVariables_non_windows "plan9" ⟨[⟨"A", "u", "t"⟩], "A"⟩ "A"
      ⟨"A", "u", "t"⟩ none ⟨fun _ => none, fun _ => none⟩
      (by decide) rfl).2.2 rfl⟩

/-- C9: on the Unix path, the export block is appended exactly to those of
the two candidate startup files that already exist on disk, a missing one
is never created, a file that exists but cannot be opened is silently
skipped while the loop continues, no other path is touched, and an
undetermined home directory fails the whole operation with an
environment error. -/
theorem setUnixEnvVars_spec (home baseURL authToken : String) (st : EnvState) :
    setUnixEnvVars none baseURL authToken st = .error .homeDirError ∧
    isSuccess (setUnixEnvVars (some home) baseURL authToken st) = true ∧
    (∀ p, st.files p = none →
        resultFiles (setUnixEnvVars (some home) baseURL authToken st) p = none) ∧
    (∀ p, p ≠ home ++ "/.bashrc" → p ≠ home ++ "/.zshrc" →
        resultFiles (setUnixEnvVars (some home) baseURL authToken st) p = st.files p) ∧
    (∀ p f, (p = home ++ "/.bashrc" ∨ p = home ++ "/.zshrc") → st.files p = some f →
        resultFiles (setUnixEnvVars (some home) baseURL authToken st) p =
          some (if f.openable then ⟨f.openable, f.content ++ exportLines baseURL authToken⟩
                else f)) := by
  have hne := rc_paths_ne home
  have hres : ∀ p, resultFiles (setUnixEnvVars (some home) baseURL authToken st) p =
      tryAppendFile (tryAppendFile st.files (home ++ "/.bashrc")
          (exportLines baseURL authToken))
        (home ++ "/.zshrc") (exportLines baseURL authToken) p :=
    fun p => rfl
  refine ⟨rfl, rfl, ?_, ?_, ?_⟩
  · intro p hp
    rw [hres]
    by_cases h1 : p = home ++ "/.zshrc"
    · subst h1
      rw [tryAppendFile_self, tryAppendFile_ne st.files _ _ _ (Ne.symm hne), hp]
      rfl
    · rw [tryAppendFile_ne _ _ _ _ h1]
      by_cases h2 : p = home ++ "/.bashrc"
      · subst h2
        rw [tryAppendFile_self, hp]
        rfl
      · rw [tryAppendFile_ne _ _ _ _ h2]
        exact hp
  · intro p hp1 hp2
    rw [hres, tryAppendFile_ne _ _ _ _ hp2, tryAppendFile_ne _ _ _ _ hp1]
  · intro p f hpor hpf
    rw [hres]
    rcases hpor with h1 | h1
    · subst h1
      rw [tryAppendFile_ne _ _ _ _ hne, tryAppendFile_self, hpf]
      rfl
    · subst h1
      rw [tryAppendFile_self, tryAppendFile_ne st.files _ _ _ (Ne.symm hne), hpf]
      rfl

/-- C9 witness: with `~/.bashrc` present and openable and `~/.zshrc`
absent, the block lands in `~/.bashrc` only, `~/.zshrc` stays absent, an
unrelated path is untouched, and a missing home directory yields the
environment error. -/
theorem setUnixEnvVars_spec_witness :
    setUnixEnvVars none "u" "t"
        ⟨fun _ => none, fun p => if p = "/h/.bashrc" then some ⟨true, "X"⟩ else none⟩
      = .error .homeDirError ∧
    isSuccess (setUnixEnvVars (some "/h") "u" "t"
        ⟨fun _ => none, fun p => if p = "/h/.bashrc" then some ⟨true, "X"⟩ else none⟩)
      = true ∧
    resultFiles (setUnixEnvVars (some "/h") "u" "t"
        ⟨fun _ => none, fun p => if p = "/h/.bashrc" then some ⟨true, "X"⟩ else none⟩)
        "/h/.zshrc" = none ∧
    resultFiles (setUnixEnvVars (some "/h") "u" "t"
        ⟨fun _ => none, fun p => if p = "/h/.bashrc" then some ⟨true, "X"⟩ else none⟩)
        "/etc/profile" = none ∧
    resultFiles (setUnixEnvVars (some "/h") "u" "t"
        ⟨fun _ => none, fun p => if p = "/h/.bashrc" then some ⟨true, "X"⟩ else none⟩)
        "/h/.bashrc" = some ⟨true, "X" ++ exportLines "u" "t"⟩ :=
  ⟨(setUnixEnvVars_spec "/h" "u" "t"
      ⟨fun _ => none, fun p => if p = "/h/.bashrc" then some ⟨true, "X"⟩ else none⟩).1,
   (setUnixEnvVars_spec "/h" "u" "t"
      ⟨fun _ => none, fun p => if p = "/h/.bashrc" then some ⟨true, "X"⟩ else none⟩).2.1,
   (setUnixEnvVars_spec "/h" "u" "t"
      ⟨fun _ => none, fun p => if p = "/h/.bashrc" then some ⟨true, "X"⟩ else none⟩).2.2.1
      "/h/.zshrc" rfl,
   (setUnixEnvVars_spec "/h" "u" "t"
      ⟨fun _ => none, fun p => if p = "/h/.bashrc" then some ⟨true, "X"⟩ else none⟩).2.2.2.1
      "/etc/profile" (by decide) (by decide),
   (setUnixEnvVars_spec "/h" "u" "t"
      ⟨fun _ => none, fun p => if p = "/h/.bashrc" then some ⟨true, "X"⟩ else none⟩).2.2.2.2
      "/h/.bashrc" ⟨true, "X"⟩ (Or.inl rfl) rfl⟩

end Chcc
